import Mathlib

/-!
Verification of the `synapse` appservice worker against its specification.

Part A embeds `AppserviceServer.replicate` (src/synapse/app/appservice.py):
the replication client loop that long-polls a primary for new stream rows,
applies them to a slaved store, and fires the application-service
notification dispatcher.

Part B embeds `RemoveHierarchyMemberRestServlet.on_DELETE`
(src/synapse/rest/admin/room_hierarchy.py): the admin endpoint that forces
a local user out of the non-public rooms of a space hierarchy.

External collaborators (HTTP client, slaved storage mixins, handlers) are
modelled as oracles/environments supplying their outcomes; the control flow
of the embedded functions follows the Python source line by line.
-/

namespace Synapse

/-! ## Part A: the replication client loop -/

/-- One stream's payload in a replication response: the new high-water
`position` and the ordered `rows` (row payloads are opaque here). -/
structure Batch where
  position : Int
  rows : List Int
  deriving Repr, DecidableEq

/-- A replication response: a JSON object keyed by stream name, modelled as
an association list (`results` in the source). -/
structure ReplResponse where
  entries : List (String × Batch)
  deriving Repr, DecidableEq

/-- Dictionary lookup, modelling Python's `results.get(name)`. -/
def ReplResponse.get (r : ReplResponse) (name : String) : Option Batch :=
  (r.entries.find? (fun p => p.1 == name)).map (fun p => p.2)

/-- Modelled from the spec: the Replica Store (`AppserviceSlaveStore`, composed
from the slaved storage mixins, whose sources are outside the shown tree).
Per §4.1 of the spec it exposes a cursor per known stream and an atomic
apply-batch that routes each present stream's sub-payload to its owner,
advances that stream's cursor monotonically, and ignores unknown streams. -/
structure SlaveStore where
  streams : List String
  pos : String → Int

/-- Modelled from the spec: `store.stream_positions()`, one entry per known
stream name mapped to its current position. -/
def SlaveStore.stream_positions (s : SlaveStore) : List (String × Int) :=
  s.streams.map (fun n => (n, s.pos n))

/-- Modelled from the spec: `store.process_replication(result)`. Each stream
present in the response has its cursor advanced (never rewound, never beyond
the supplied position); streams absent from the response, and response keys
not known to this store, leave cursors unchanged. -/
def SlaveStore.process_replication (s : SlaveStore) (r : ReplResponse) : SlaveStore :=
  { streams := s.streams
    pos := fun n =>
      if n ∈ s.streams then
        match r.get n with
        | some b => max (s.pos n) b.position
        | none => s.pos n
      else s.pos n }

/-- Outcome of the long-poll `http_client.get_json` call for one iteration:
either a replication failure (network error, bad status, malformed payload)
or a parsed response. -/
inductive ReqResult where
  | fail
  | ok (r : ReplResponse)
  deriving Repr, DecidableEq

/-- Oracle for one loop iteration: what the external world does at each of
the iteration's effectful steps. `applyFails` is whether
`store.process_replication` raises; `dispatchFails` is whether
`notify_interested_services` fails. -/
structure IterOracle where
  req : ReqResult
  applyFails : Bool
  dispatchFails : Bool
  deriving Repr, DecidableEq

/-- Observable events of the loop, in program order. -/
inductive LoopEvent where
  | requested (args : List (String × Int))
  | logged (url : String)
  | slept (t : Int)
  | dispatched (p : Int)
  deriving Repr, DecidableEq

/-- Query arguments of the long-poll request: `args = store.stream_positions();
args["timeout"] = 30000`. -/
def requestArgs (s : SlaveStore) : List (String × Int) :=
  s.stream_positions ++ [("timeout", 30000)]

/-- The inner `replicate(results)` callback: look up the `events` stream and,
when present, invoke `notify_interested_services` with its `position`. Returns
the outcome of the (possibly failing) dispatch call, and the position the
dispatcher was invoked with (if any). -/
def dispatchStep (r : ReplResponse) (fails : Bool) : Except Unit Unit × Option Int :=
  match r.get "events" with
  | some b => (if fails then Except.error () else Except.ok (), some b.position)
  | none => (Except.ok (), none)

/-- One iteration of the `while True` body of `AppserviceServer.replicate`:
read positions, add the timeout, long-poll, apply, fire the dispatcher;
on any failure up to and including the apply, log with the replication URL
and sleep 30. The dispatch deferred is fired without `yield`, so its outcome
is dropped on the floor and never reaches the `except` clause. -/
def replicateIter (url : String) (store : SlaveStore) (o : IterOracle) :
    SlaveStore × List LoopEvent :=
  let args := requestArgs store
  match o.req with
  | ReqResult.fail =>
      (store, [LoopEvent.requested args, LoopEvent.logged url, LoopEvent.slept 30])
  | ReqResult.ok r =>
      if o.applyFails then
        (store, [LoopEvent.requested args, LoopEvent.logged url, LoopEvent.slept 30])
      else
        let store' := store.process_replication r
        let step := dispatchStep r o.dispatchFails
        match step.2 with
        | some p => (store', [LoopEvent.requested args, LoopEvent.dispatched p])
        | none => (store', [LoopEvent.requested args])

/-- State of the loop after `n` iterations, driven by the oracle stream `f`. -/
def runState (url : String) (s : SlaveStore) (f : Nat → IterOracle) : Nat → SlaveStore
  | 0 => s
  | n + 1 => (replicateIter url (runState url s f n) (f n)).1

/-- Events emitted by iteration `n` (0-based). -/
def iterEvents (url : String) (s : SlaveStore) (f : Nat → IterOracle) (n : Nat) :
    List LoopEvent :=
  (replicateIter url (runState url s f n) (f n)).2

/-- Concatenated events of the first `n` iterations. -/
def tracePrefix (url : String) (s : SlaveStore) (f : Nat → IterOracle) : Nat → List LoopEvent
  | 0 => []
  | n + 1 => tracePrefix url s f n ++ iterEvents url s f n

/-- Run of the loop over a finite list of iteration oracles: final store and
full event trace. -/
def replicateRun (url : String) (s : SlaveStore) : List IterOracle → SlaveStore × List LoopEvent
  | [] => (s, [])
  | o :: os =>
      let step := replicateIter url s o
      let rest := replicateRun url step.1 os
      (rest.1, step.2 ++ rest.2)

/-- Positions passed to the Notification Dispatcher, in trace order. -/
def dispatchedPositions : List LoopEvent → List Int
  | [] => []
  | LoopEvent.dispatched p :: es => p :: dispatchedPositions es
  | _ :: es => dispatchedPositions es

/-- Total time slept in a trace. -/
def sleepTotal : List LoopEvent → Int
  | [] => 0
  | LoopEvent.slept t :: es => t + sleepTotal es
  | _ :: es => sleepTotal es

/-- Number of logged replication failures in a trace. -/
def failCount : List LoopEvent → Nat
  | [] => 0
  | LoopEvent.logged _ :: es => failCount es + 1
  | _ :: es => failCount es

/-- Whether the iteration described by the oracle fails (request failure, or
a successful request whose apply raises). -/
def iterFails (o : IterOracle) : Bool :=
  match o.req with
  | ReqResult.fail => true
  | ReqResult.ok _ => o.applyFails

/-- The responses an oracle list applies successfully, in order received. -/
def successResponses : List IterOracle → List ReplResponse
  | [] => []
  | o :: os =>
      match o.req with
      | ReqResult.ok r => if o.applyFails then successResponses os else r :: successResponses os
      | ReqResult.fail => successResponses os

/-- Validity of one oracle step relative to the current store, per the wire
contract of §6: when the primary answers, any `events` batch it serves
continues from (is at or past) the cursor the consumer sent. -/
def validOracle (s : SlaveStore) (o : IterOracle) : Prop :=
  match o.req with
  | ReqResult.ok r =>
      match r.get "events" with
      | some b => s.pos "events" ≤ b.position
      | none => True
  | ReqResult.fail => True

/-- Validity of a whole run: every step's response is valid for the store
state at which it is received. -/
def validRun (url : String) : SlaveStore → List IterOracle → Prop
  | _, [] => True
  | s, o :: os => validOracle s o ∧ validRun url (replicateIter url s o).1 os

/-! ## Part B: RemoveHierarchyMemberRestServlet.on_DELETE -/

/-- Environment of one `on_DELETE` request: the outcomes of every external
call the handler makes, keyed the way the handler queries them.
`joinRuleState r` is the two-level lookup of the room's join rules: the outer
`Option` is whether a join-rules event id is in the room's current state
(`current_state_ids.get((EventTypes.JoinRules, ""))`), the inner is the
event's `content.get("join_rule")`. `leaveResult r` is the outcome of
`update_membership(..., action=leave)` for that room, `Except.error msg`
meaning a raised exception whose `str` is `msg`. -/
structure HierarchyEnv where
  authOk : Bool
  resolvedSpace : Option String
  isMine : String → Bool
  userRooms : List String
  descendants : List String
  inaccessible : List String
  joinRuleState : String → Option (Option String)
  leaveResult : String → Except String Unit

/-- Externally visible effects of the handler, in program order. -/
inductive AdminEffect where
  | fetchedMemberships (userId : String)
  | fetchedState (roomId : String)
  | leaveAttempt (roomId : String)
  deriving Repr, DecidableEq

/-- Body of the 200 response: the `left` list and the `failed` dictionary
(association list, keys in insertion order). -/
structure LeaveOutcome where
  status : Nat
  leftRooms : List String
  failed : List (String × List String)
  deriving Repr, DecidableEq

/-- Python's `failures.get(room_id, []).append(str(e))`: when `room` is a key
of `fs`, the message is appended to its (mutable) list; when it is not,
`dict.get` returns a fresh list, the append mutates only that fresh list, and
the dictionary is unchanged. -/
def appendFailure (fs : List (String × List String)) (room msg : String) :
    List (String × List String) :=
  if fs.any (fun p => p.1 == room) then
    fs.map (fun p => if p.1 == room then (p.1, p.2 ++ [msg]) else p)
  else fs

/-- One pass of the leave loop: attempt `update_membership`; on success append
the room to `left_rooms`, on an exception route the message through
`failures.get(room_id, []).append(str(e))`. -/
def leaveStep (lr : String → Except String Unit)
    (acc : List String × List (String × List String)) (room : String) :
    List String × List (String × List String) :=
  match lr room with
  | Except.ok _ => (acc.1 ++ [room], acc.2)
  | Except.error e => (acc.1, appendFailure acc.2 room e)

/-- Whether the handler treats the room as leavable: its locally-known join
rule is anything but `public` (a room with no join-rules state at all, or a
join-rules event without a `join_rule` key, counts as non-public). -/
def nonPublic (env : HierarchyEnv) (room : String) : Bool :=
  !(env.joinRuleState room == some (some "public"))

/-- Local `space_room_ids` of the handler: the space itself plus every room
id returned by the hierarchy traversal (a Python set, modelled as a
deduplicated list). -/
def space_room_ids (env : HierarchyEnv) (sp : String) : List String :=
  (sp :: env.descendants).dedup

/-- Local `rooms_to_check`: hierarchy rooms among the user's
invite/join/knock memberships. -/
def rooms_to_check (env : HierarchyEnv) (sp : String) : List String :=
  (space_room_ids env sp).filter (fun r => env.userRooms.contains r)

/-- Local `rooms_to_leave`: the space itself (always, even if public) plus
every checked room whose join rule is not `public`. -/
def rooms_to_leave (env : HierarchyEnv) (sp : String) : List String :=
  (sp :: (rooms_to_check env sp).filter (fun r => nonPublic env r)).dedup

/-- Initial value of the `failures` dictionary: one entry per inaccessible
room reported by the traversal. -/
def initialFailures (env : HierarchyEnv) : List (String × List String) :=
  env.inaccessible.dedup.map (fun r => (r, ["Could not fully explore space or room."]))

/-- Shallow embedding of `RemoveHierarchyMemberRestServlet.on_DELETE`:
authenticate and check admin, resolve the space id, reject non-local users
with a 400, gather the user's invite/join/knock rooms and the space's
descendants, pick the non-public rooms the user is in (plus the space
itself, always), leave each, and aggregate partial failures. Python's sets
are modelled as deduplicated lists; iteration order is fixed left-to-right
(the claims below are order-insensitive). Returns the HTTP outcome and the
effect trace. -/
def on_DELETE (env : HierarchyEnv) (userId : String) :
    Except Nat LeaveOutcome × List AdminEffect :=
  if !env.authOk then (Except.error 401, [])
  else
    match env.resolvedSpace with
    | none => (Except.error 404, [])
    | some space_id =>
        if !env.isMine userId then (Except.error 400, [])
        else
          let res := (rooms_to_leave env space_id).foldl
            (leaveStep env.leaveResult) ([], initialFailures env)
          (Except.ok { status := 200, leftRooms := res.1, failed := res.2 },
            AdminEffect.fetchedMemberships userId ::
              ((rooms_to_check env space_id).map AdminEffect.fetchedState ++
                (rooms_to_leave env space_id).map AdminEffect.leaveAttempt))

/-- Rooms for which a leave was attempted, read off the effect trace. -/
def leaveAttempts : List AdminEffect → List String
  | [] => []
  | AdminEffect.leaveAttempt r :: es => r :: leaveAttempts es
  | _ :: es => leaveAttempts es

/-! ## Concrete fixtures used by the witnesses -/

/-- The arguments actually requested, read off a trace in program order. -/
def requestedArgsOf : List LoopEvent → List (List (String × Int))
  | [] => []
  | LoopEvent.requested a :: es => a :: requestedArgsOf es
  | _ :: es => requestedArgsOf es

/-- A fresh appservice worker store: the four slaved domains, all cursors 0. -/
def demoStore : SlaveStore :=
  { streams := ["directory", "events", "appservice", "registration"]
    pos := fun _ => 0 }

/-- The response of the spec's first scenario. -/
def demoResponse : ReplResponse :=
  { entries := [("events", { position := 5, rows := [1, 2, 3, 4, 5] })] }

/-- An iteration where request, apply and dispatch all succeed. -/
def demoOracle : IterOracle :=
  { req := ReqResult.ok demoResponse, applyFails := false, dispatchFails := false }

/-- An iteration whose long-poll request fails. -/
def failOracle : IterOracle :=
  { req := ReqResult.fail, applyFails := false, dispatchFails := false }

/-- An iteration whose request succeeds but whose apply raises. -/
def applyFailOracle : IterOracle :=
  { req := ReqResult.ok demoResponse, applyFails := true, dispatchFails := false }

/-- A primary that is permanently unreachable. -/
def alwaysFail : Nat → IterOracle := fun _ => failOracle

/-- A later response, advancing the `events` stream further. -/
def demoResponse7 : ReplResponse :=
  { entries := [("events", { position := 7, rows := [6, 7] })] }

/-- A second fully successful iteration. -/
def demoOracle7 : IterOracle :=
  { req := ReqResult.ok demoResponse7, applyFails := false, dispatchFails := false }

/-- A three-iteration run: success at 5, a network failure, success at 7. -/
def demoOracles : List IterOracle := [demoOracle, failOracle, demoOracle7]

/-- Whether an `update_membership` outcome is a success. -/
def exceptOk (e : Except String Unit) : Bool :=
  match e with
  | Except.ok _ => true
  | Except.error _ => false

/-- A concrete admin request environment: a space with three accessible
descendant rooms (one public, one private that leaves cleanly, one private
whose leave raises `boom`) and one inaccessible room. -/
def demoEnv : HierarchyEnv :=
  { authOk := true
    resolvedSpace := some "!space:hs"
    isMine := fun u => u == "@alice:hs"
    userRooms := ["!bad:hs", "!pub:hs", "!priv:hs"]
    descendants := ["!bad:hs", "!pub:hs", "!priv:hs"]
    inaccessible := ["!inacc:hs"]
    joinRuleState := fun r => if r == "!pub:hs" then some (some "public") else some (some "invite")
    leaveResult := fun r => if r == "!bad:hs" then Except.error "boom" else Except.ok () }

/-- The same environment with a remote target user. -/
def demoEnvRemote : HierarchyEnv :=
  { demoEnv with isMine := fun _ => false }

/-! ## Theorems: the replication client loop -/

theorem dispatchStep_snd (r : ReplResponse) (b : Bool) :
    (dispatchStep r b).2 = (r.get "events").map Batch.position := by
  cases h : r.get "events" <;> simp [dispatchStep, h]

theorem requestedArgsOf_replicateIter (url : String) (s : SlaveStore) (o : IterOracle) :
    requestedArgsOf (replicateIter url s o).2 = [requestArgs s] := by
  cases hr : o.req with
  | fail => simp [replicateIter, hr, requestedArgsOf]
  | ok r =>
      cases ha : o.applyFails <;>
        cases h : r.get "events" <;>
          simp [replicateIter, hr, ha, dispatchStep_snd, h, requestedArgsOf]

/-- C1: in an iteration whose request and apply both succeed, the dispatcher
is invoked exactly once with the `position` of the response's `events` entry
when that entry is present, and not at all when it is absent. -/
theorem replicate_dispatch_iff_events_entry (url : String) (s : SlaveStore)
    (o : IterOracle) (r : ReplResponse)
    (hreq : o.req = ReqResult.ok r) (happ : o.applyFails = false) :
    dispatchedPositions (replicateIter url s o).2 =
      ((r.get "events").map Batch.position).toList := by
  cases h : r.get "events" <;>
    simp [replicateIter, hreq, happ, dispatchStep_snd, h, dispatchedPositions]

/-- Witness for C1: the spec scenario `{events: {position: 5, rows: [...]}}`
leads to exactly one dispatch, with position 5. -/
theorem replicate_dispatch_iff_events_entry_witness :
    dispatchedPositions (replicateIter "http://primary/replication" demoStore demoOracle).2
      = [5] :=
  (replicate_dispatch_iff_events_entry "http://primary/replication" demoStore demoOracle
    demoResponse rfl rfl).trans (by decide)

/-- C2: a failed iteration (request failure or apply failure) leaves the
store untouched, emits exactly a request, a log naming the replication URL
and a 30-unit sleep, and the next iteration's request arguments are
identical to the failed attempt's. -/
theorem replicate_failure_backoff (url : String) (s : SlaveStore) (o : IterOracle)
    (h : iterFails o = true) :
    (replicateIter url s o).1 = s ∧
    (replicateIter url s o).2 =
      [LoopEvent.requested (requestArgs s), LoopEvent.logged url, LoopEvent.slept 30] ∧
    requestArgs (replicateIter url s o).1 = requestArgs s := by
  cases hr : o.req with
  | fail => simp [replicateIter, hr]
  | ok r =>
      have ha : o.applyFails = true := by simpa [iterFails, hr] using h
      simp [replicateIter, hr, ha]

/-- Witness for C2: a network failure against a fresh store. -/
theorem replicate_failure_backoff_witness :
    (replicateIter "http://primary/replication" demoStore failOracle).1 = demoStore ∧
    (replicateIter "http://primary/replication" demoStore failOracle).2 =
      [LoopEvent.requested (requestArgs demoStore),
        LoopEvent.logged "http://primary/replication", LoopEvent.slept 30] :=
  ⟨(replicate_failure_backoff "http://primary/replication" demoStore failOracle rfl).1,
    (replicate_failure_backoff "http://primary/replication" demoStore failOracle rfl).2.1⟩

/-- C3: when `store.process_replication(result)` raises, the failure reaches
the loop's `except` clause (log plus 30-unit sleep), the dispatcher is not
invoked for that response, no position advances, and the next iteration
re-requests with the same arguments. -/
theorem replicate_apply_failure_propagates (url : String) (s : SlaveStore)
    (o : IterOracle) (r : ReplResponse)
    (hreq : o.req = ReqResult.ok r) (happ : o.applyFails = true) :
    (replicateIter url s o).1 = s ∧
    LoopEvent.logged url ∈ (replicateIter url s o).2 ∧
    LoopEvent.slept 30 ∈ (replicateIter url s o).2 ∧
    (∀ p, LoopEvent.dispatched p ∉ (replicateIter url s o).2) ∧
    requestArgs (replicateIter url s o).1 = requestArgs s := by
  simp [replicateIter, hreq, happ]

/-- Witness for C3: an apply failure on the scenario response dispatches
nothing and leaves the store as it was. -/
theorem replicate_apply_failure_propagates_witness :
    (replicateIter "http://primary/replication" demoStore applyFailOracle).1 = demoStore ∧
    LoopEvent.dispatched 5 ∉
      (replicateIter "http://primary/replication" demoStore applyFailOracle).2 :=
  ⟨(replicate_apply_failure_propagates "http://primary/replication" demoStore applyFailOracle
      demoResponse rfl rfl).1,
    (replicate_apply_failure_propagates "http://primary/replication" demoStore applyFailOracle
      demoResponse rfl rfl).2.2.2.1 5⟩

/-- C5: a failure of `notify_interested_services` is invisible to the loop:
the iteration's resulting store and events are the same whether the dispatch
deferred fails or succeeds, so the loop neither aborts nor delays. -/
theorem replicate_dispatch_fire_and_forget (url : String) (s : SlaveStore)
    (o : IterOracle) (b : Bool) :
    replicateIter url s { o with dispatchFails := b } = replicateIter url s o := by
  cases hr : o.req with
  | fail => simp [replicateIter, hr]
  | ok r => cases ha : o.applyFails <;> simp [replicateIter, hr, ha, dispatchStep_snd]

/-- C6: every iteration issues exactly one request, whose query arguments are
the store's `stream_positions()` at the start of the iteration — one entry
per known stream name mapped to its current position — followed by
`timeout = 30000`. -/
theorem replicate_request_carries_positions_and_timeout (url : String)
    (s : SlaveStore) (f : Nat → IterOracle) (n : Nat) :
    requestedArgsOf (iterEvents url s f n) =
      [(runState url s f n).stream_positions ++ [("timeout", 30000)]] ∧
    (runState url s f n).stream_positions =
      (runState url s f n).streams.map (fun m => (m, (runState url s f n).pos m)) :=
  ⟨requestedArgsOf_replicateIter url (runState url s f n) (f n), rfl⟩

theorem sleepTotal_append (l1 l2 : List LoopEvent) :
    sleepTotal (l1 ++ l2) = sleepTotal l1 + sleepTotal l2 := by
  induction l1 with
  | nil => simp [sleepTotal]
  | cons e es ih => cases e <;> simp [sleepTotal, ih, add_assoc]

theorem failCount_append (l1 l2 : List LoopEvent) :
    failCount (l1 ++ l2) = failCount l1 + failCount l2 := by
  induction l1 with
  | nil => simp [failCount]
  | cons e es ih =>
      cases e <;> simp [failCount, ih]
      omega

theorem sleepTotal_replicateIter (url : String) (s : SlaveStore) (o : IterOracle) :
    sleepTotal (replicateIter url s o).2 =
      30 * (failCount (replicateIter url s o).2 : Int) := by
  cases hr : o.req with
  | fail => simp [replicateIter, hr, sleepTotal, failCount]
  | ok r =>
      cases ha : o.applyFails <;>
        cases h : r.get "events" <;>
          simp [replicateIter, hr, ha, dispatchStep_snd, h, sleepTotal, failCount]

theorem runState_alwaysFail (url : String) (s : SlaveStore) (n : Nat) :
    runState url s alwaysFail n = s := by
  induction n with
  | zero => rfl
  | succ n ih => simp [runState, ih, replicateIter, alwaysFail, failOracle]

theorem failCount_tracePrefix_alwaysFail (url : String) (s : SlaveStore) (n : Nat) :
    failCount (tracePrefix url s alwaysFail n) = n := by
  induction n with
  | zero => rfl
  | succ n ih =>
      simp [tracePrefix, failCount_append, ih, iterEvents, runState_alwaysFail,
        replicateIter, alwaysFail, failOracle, failCount]

/-- C7: the loop has no terminal state and its failure rate is bounded by the
backoff. In every run the trace of `n + 1` iterations extends the trace of
`n` iterations by exactly the events of one further iteration, and that
iteration always issues its request; in every run the time slept equals 30
times the number of logged failures (at most one failed attempt per 30-unit
backoff period); and against a permanently unreachable primary the loop
retries indefinitely — after any number of failures the store is unchanged,
the next iteration issues the identical request, and `n` iterations log
exactly `n` failures while sleeping exactly `30 * n`. -/
theorem replicate_loop_never_terminal (url : String) (s : SlaveStore)
    (f : Nat → IterOracle) (n : Nat) :
    tracePrefix url s f (n + 1) = tracePrefix url s f n ++ iterEvents url s f n ∧
    requestedArgsOf (iterEvents url s f n) = [requestArgs (runState url s f n)] ∧
    sleepTotal (tracePrefix url s f n) = 30 * (failCount (tracePrefix url s f n) : Int) ∧
    runState url s alwaysFail n = s ∧
    iterEvents url s alwaysFail n =
      [LoopEvent.requested (requestArgs s), LoopEvent.logged url, LoopEvent.slept 30] ∧
    failCount (tracePrefix url s alwaysFail n) = n ∧
    sleepTotal (tracePrefix url s alwaysFail n) = 30 * n := by
  refine ⟨rfl, requestedArgsOf_replicateIter url (runState url s f n) (f n), ?_, ?_, ?_, ?_, ?_⟩
  · induction n with
    | zero => rfl
    | succ n ih =>
        simp [tracePrefix, sleepTotal_append, failCount_append, ih,
          sleepTotal_replicateIter, iterEvents]
        ring
  · exact runState_alwaysFail url s n
  · simp [iterEvents, runState_alwaysFail, replicateIter, alwaysFail, failOracle]
  · exact failCount_tracePrefix_alwaysFail url s n
  · induction n with
    | zero => rfl
    | succ n ih =>
        simp [tracePrefix, sleepTotal_append, ih, iterEvents, runState_alwaysFail,
          replicateIter, alwaysFail, failOracle, sleepTotal]
        ring

theorem dispatchedPositions_append (l1 l2 : List LoopEvent) :
    dispatchedPositions (l1 ++ l2) = dispatchedPositions l1 ++ dispatchedPositions l2 := by
  induction l1 with
  | nil => simp [dispatchedPositions]
  | cons e es ih => cases e <;> simp [dispatchedPositions, ih]

theorem replicateIter_streams (url : String) (s : SlaveStore) (o : IterOracle) :
    (replicateIter url s o).1.streams = s.streams := by
  cases hr : o.req with
  | fail => simp [replicateIter, hr]
  | ok r =>
      cases ha : o.applyFails <;>
        cases h : r.get "events" <;>
          simp [replicateIter, hr, ha, dispatchStep_snd, h, SlaveStore.process_replication]

theorem process_replication_pos_events (s : SlaveStore) (r : ReplResponse)
    (hs : "events" ∈ s.streams) :
    (s.process_replication r).pos "events" =
      match r.get "events" with
      | some b => max (s.pos "events") b.position
      | none => s.pos "events" := by
  simp [SlaveStore.process_replication, hs]

theorem replicate_monotone_aux (url : String) :
    ∀ (os : List IterOracle) (s : SlaveStore), "events" ∈ s.streams →
      validRun url s os →
      List.Chain' (fun a b : Int => a ≤ b) (dispatchedPositions (replicateRun url s os).2) ∧
      (∀ p ∈ dispatchedPositions (replicateRun url s os).2, s.pos "events" ≤ p) ∧
      s.pos "events" ≤ (replicateRun url s os).1.pos "events" ∧
      (replicateRun url s os).1 = (successResponses os).foldl SlaveStore.process_replication s := by
  intro os
  induction os with
  | nil =>
      intro s hs _
      simp [replicateRun, dispatchedPositions, successResponses]
  | cons o os ih =>
      intro s hs hv
      obtain ⟨hv1, hv2⟩ := hv
      have hrun :
          replicateRun url s (o :: os) =
            ((replicateRun url (replicateIter url s o).1 os).1,
              (replicateIter url s o).2 ++ (replicateRun url (replicateIter url s o).1 os).2) := by
        simp [replicateRun]
      cases hr : o.req with
      | fail =>
          have hstep : replicateIter url s o =
              (s, [LoopEvent.requested (requestArgs s), LoopEvent.logged url,
                LoopEvent.slept 30]) := by
            simp [replicateIter, hr]
          have hIH := ih s hs (by rwa [hstep] at hv2)
          rw [hrun, hstep]
          simpa [dispatchedPositions, successResponses, hr] using hIH
      | ok r =>
          cases ha : o.applyFails with
          | true =>
              have hstep : replicateIter url s o =
                  (s, [LoopEvent.requested (requestArgs s), LoopEvent.logged url,
                    LoopEvent.slept 30]) := by
                simp [replicateIter, hr, ha]
              have hIH := ih s hs (by rwa [hstep] at hv2)
              rw [hrun, hstep]
              simpa [dispatchedPositions, successResponses, hr, ha] using hIH
          | false =>
              have hs' : "events" ∈ (s.process_replication r).streams := by
                simpa [SlaveStore.process_replication] using hs
              cases h : r.get "events" with
              | none =>
                  have hstep : replicateIter url s o =
                      (s.process_replication r, [LoopEvent.requested (requestArgs s)]) := by
                    simp [replicateIter, hr, ha, dispatchStep_snd, h]
                  have hpos : (s.process_replication r).pos "events" = s.pos "events" := by
                    rw [process_replication_pos_events s r hs, h]
                  have hIH := ih (s.process_replication r) hs' (by rwa [hstep] at hv2)
                  rw [hrun, hstep]
                  refine ⟨?_, ?_, ?_, ?_⟩
                  · simpa [dispatchedPositions] using hIH.1
                  · intro p hp
                    have hp' :
                        p ∈ dispatchedPositions
                          (replicateRun url (s.process_replication r) os).2 := by
                      simpa [dispatchedPositions_append, dispatchedPositions] using hp
                    have := hIH.2.1 p hp'
                    rwa [hpos] at this
                  · have := hIH.2.2.1
                    rw [hpos] at this
                    simpa using this
                  · simpa [successResponses, hr, ha] using hIH.2.2.2
              | some b =>
                  have hvb : s.pos "events" ≤ b.position := by
                    simpa [validOracle, hr, h] using hv1
                  have hstep : replicateIter url s o =
                      (s.process_replication r,
                        [LoopEvent.requested (requestArgs s),
                          LoopEvent.dispatched b.position]) := by
                    simp [replicateIter, hr, ha, dispatchStep_snd, h]
                  have hpos : (s.process_replication r).pos "events" =
                      max (s.pos "events") b.position := by
                    rw [process_replication_pos_events s r hs, h]
                  have hIH := ih (s.process_replication r) hs' (by rwa [hstep] at hv2)
                  rw [hrun, hstep]
                  refine ⟨?_, ?_, ?_, ?_⟩
                  · have hhead :
                        ∀ x ∈ (dispatchedPositions
                            (replicateRun url (s.process_replication r) os).2).head?,
                          b.position ≤ x := by
                      intro x hx
                      have hxmem := List.mem_of_mem_head? hx
                      have := hIH.2.1 x hxmem
                      calc b.position ≤ (s.process_replication r).pos "events" := by
                              rw [hpos]; exact le_max_right _ _
                        _ ≤ x := this
                    have : List.Chain' (fun a b : Int => a ≤ b)
                        (b.position :: dispatchedPositions
                          (replicateRun url (s.process_replication r) os).2) :=
                      List.chain'_cons'.2 ⟨hhead, hIH.1⟩
                    simpa [dispatchedPositions_append, dispatchedPositions] using this
                  · intro p hp
                    have hp' : p = b.position ∨
                        p ∈ dispatchedPositions
                          (replicateRun url (s.process_replication r) os).2 := by
                      simpa [dispatchedPositions_append, dispatchedPositions] using hp
                    rcases hp' with hp' | hp'
                    · exact hp' ▸ hvb
                    · have := hIH.2.1 p hp'
                      calc s.pos "events" ≤ (s.process_replication r).pos "events" := by
                              rw [hpos]; exact le_max_left _ _
                        _ ≤ p := this
                  · have := hIH.2.2.1
                    calc s.pos "events" ≤ (s.process_replication r).pos "events" := by
                            rw [hpos]; exact le_max_left _ _
                      _ ≤ _ := this
                  · simpa [successResponses, hr, ha] using hIH.2.2.2

/-- C4: responses are applied strictly sequentially in the order received —
the final store of any run is the left fold of `process_replication` over the
successfully applied responses in arrival order — and, whenever every
response respects the wire contract (its `events` batch is at or past the
cursor the consumer sent), the positions handed to the Notification
Dispatcher over the run are non-decreasing. -/
theorem replicate_sequential_and_dispatch_monotone (url : String) (s : SlaveStore)
    (os : List IterOracle) (hs : "events" ∈ s.streams) (hv : validRun url s os) :
    List.Chain' (fun a b : Int => a ≤ b) (dispatchedPositions (replicateRun url s os).2) ∧
    (replicateRun url s os).1 =
      (successResponses os).foldl SlaveStore.process_replication s :=
  ⟨(replicate_monotone_aux url os s hs hv).1, (replicate_monotone_aux url os s hs hv).2.2.2⟩

/-- Witness for C4: over the three-iteration demo run (success at position 5,
a network failure, success at position 7) the dispatched positions are
non-decreasing and the final store is the fold of the two applied responses. -/
theorem replicate_sequential_and_dispatch_monotone_witness :
    List.Chain' (fun a b : Int => a ≤ b)
      (dispatchedPositions (replicateRun "http://primary/replication" demoStore demoOracles).2) ∧
    (replicateRun "http://primary/replication" demoStore demoOracles).1 =
      (successResponses demoOracles).foldl SlaveStore.process_replication demoStore :=
  replicate_sequential_and_dispatch_monotone "http://primary/replication" demoStore demoOracles
    (by decide)
    (by
      simp [validRun, validOracle, replicateIter, dispatchStep,
        demoOracles, demoOracle, demoOracle7, failOracle,
        demoResponse, demoResponse7, ReplResponse.get, demoStore,
        SlaveStore.process_replication, requestArgs, SlaveStore.stream_positions])

/-! ## Theorems: the admin hierarchy-member removal endpoint -/

theorem leaveAttempts_append (l1 l2 : List AdminEffect) :
    leaveAttempts (l1 ++ l2) = leaveAttempts l1 ++ leaveAttempts l2 := by
  induction l1 with
  | nil => simp [leaveAttempts]
  | cons e es ih => cases e <;> simp [leaveAttempts, ih]

theorem leaveAttempts_map_fetchedState (l : List String) :
    leaveAttempts (l.map AdminEffect.fetchedState) = [] := by
  induction l with
  | nil => rfl
  | cons r rs ih => simp [leaveAttempts, ih]

theorem leaveAttempts_map_leaveAttempt (l : List String) :
    leaveAttempts (l.map AdminEffect.leaveAttempt) = l := by
  induction l with
  | nil => rfl
  | cons r rs ih => simp [leaveAttempts, ih]

theorem map_keys_update (fs : List (String × List String)) (room msg : String) :
    (fs.map (fun p => if p.1 == room then (p.1, p.2 ++ [msg]) else p)).map Prod.fst =
      fs.map Prod.fst := by
  induction fs with
  | nil => rfl
  | cons p ps ih =>
      simp only [List.map_cons, ih]
      by_cases hp : (p.1 == room) = true
      · rw [if_pos hp]
      · rw [if_neg hp]

theorem appendFailure_keys (fs : List (String × List String)) (room msg : String) :
    (appendFailure fs room msg).map Prod.fst = fs.map Prod.fst := by
  unfold appendFailure
  split
  · exact map_keys_update fs room msg
  · rfl

theorem leave_foldl_keys (lr : String → Except String Unit) :
    ∀ (rooms : List String) (acc : List String × List (String × List String)),
      ((rooms.foldl (leaveStep lr) acc).2).map Prod.fst = acc.2.map Prod.fst := by
  intro rooms
  induction rooms with
  | nil => intro acc; rfl
  | cons r rs ih =>
      intro acc
      rw [List.foldl_cons, ih]
      cases h : lr r with
      | ok v => simp [leaveStep, h]
      | error e => simp [leaveStep, h, appendFailure_keys]

theorem leave_foldl_left (lr : String → Except String Unit) :
    ∀ (rooms : List String) (acc : List String × List (String × List String)),
      (rooms.foldl (leaveStep lr) acc).1 =
        acc.1 ++ rooms.filter (fun r => exceptOk (lr r)) := by
  intro rooms
  induction rooms with
  | nil => intro acc; simp
  | cons r rs ih =>
      intro acc
      rw [List.foldl_cons]
      cases h : lr r with
      | ok v => rw [ih]; simp [leaveStep, h, exceptOk, List.filter_cons]
      | error e => rw [ih]; simp [leaveStep, h, exceptOk, List.filter_cons]

theorem map_pair_keys (l : List String) (msg : List String) :
    (l.map (fun r => (r, msg))).map Prod.fst = l := by
  induction l with
  | nil => rfl
  | cons r rs ih => simp only [List.map_cons, ih]

theorem initialFailures_keys (env : HierarchyEnv) :
    (initialFailures env).map Prod.fst = env.inaccessible.dedup :=
  map_pair_keys env.inaccessible.dedup _

/-- C8: a completed removal request always returns status 200; the keys of
its `failed` dictionary are exactly the inaccessible rooms reported by the
hierarchy traversal; and a room whose leave raised but which is not among
the inaccessible rooms appears in neither `left` nor `failed` — the
exception message went into the fresh list returned by
`failures.get(room_id, [])` and was discarded. -/
theorem on_DELETE_partial_failure_aggregation (env : HierarchyEnv) (u : String)
    (out : LeaveOutcome) (hout : (on_DELETE env u).1 = Except.ok out) :
    out.status = 200 ∧
    out.failed.map Prod.fst = env.inaccessible.dedup ∧
    ∀ room, room ∉ env.inaccessible → exceptOk (env.leaveResult room) = false →
      room ∉ out.leftRooms ∧ room ∉ out.failed.map Prod.fst := by
  cases hauth : env.authOk with
  | false => rw [on_DELETE] at hout; simp [hauth] at hout
  | true =>
      cases hres : env.resolvedSpace with
      | none => rw [on_DELETE] at hout; simp [hauth, hres] at hout
      | some sp =>
          cases hmine : env.isMine u with
          | false => rw [on_DELETE] at hout; simp [hauth, hres, hmine] at hout
          | true =>
              rw [on_DELETE] at hout
              simp only [hauth, hres, hmine, Bool.not_true, Bool.false_eq_true,
                if_false, Except.ok.injEq] at hout
              subst hout
              refine ⟨rfl, ?_, ?_⟩
              · rw [leave_foldl_keys, initialFailures_keys]
              · intro room hin hfail
                constructor
                · rw [leave_foldl_left]
                  simp only [List.nil_append, List.mem_filter]
                  rintro ⟨-, hok⟩
                  rw [hfail] at hok
                  exact Bool.false_ne_true hok
                · rw [leave_foldl_keys, initialFailures_keys]
                  intro hc
                  exact hin (List.mem_dedup.1 hc)

/-- Witness for C8: in the demo environment the leave of `!bad:hs` raises
`boom`; the request completes with 200, `failed` still keys only the
inaccessible room, and `!bad:hs` is in neither `left` nor `failed`. -/
theorem on_DELETE_partial_failure_aggregation_witness :
    ("!bad:hs" ∉ (LeaveOutcome.mk 200 ["!space:hs", "!priv:hs"]
        [("!inacc:hs", ["Could not fully explore space or room."])]).leftRooms ∧
      "!bad:hs" ∉ (LeaveOutcome.mk 200 ["!space:hs", "!priv:hs"]
        [("!inacc:hs", ["Could not fully explore space or room."])]).failed.map Prod.fst) ∧
    (LeaveOutcome.mk 200 ["!space:hs", "!priv:hs"]
      [("!inacc:hs", ["Could not fully explore space or room."])]).failed.map Prod.fst =
      demoEnv.inaccessible.dedup :=
  ⟨(on_DELETE_partial_failure_aggregation demoEnv "@alice:hs"
      (LeaveOutcome.mk 200 ["!space:hs", "!priv:hs"]
        [("!inacc:hs", ["Could not fully explore space or room."])]) rfl).2.2
      "!bad:hs" (by decide) (by decide),
    (on_DELETE_partial_failure_aggregation demoEnv "@alice:hs"
      (LeaveOutcome.mk 200 ["!space:hs", "!priv:hs"]
        [("!inacc:hs", ["Could not fully explore space or room."])]) rfl).2.1⟩

/-- C9: the rooms for which a leave is attempted are attempted once each and
are exactly the space itself together with the hierarchy rooms that are
among the user's invite/join/knock memberships and whose locally-known join
rule is not `public` (absent join-rules state counting as non-public); the
space is included regardless of its join rule or the user's membership. -/
theorem on_DELETE_leave_set (env : HierarchyEnv) (u sp : String)
    (hauth : env.authOk = true) (hres : env.resolvedSpace = some sp)
    (hmine : env.isMine u = true) :
    (leaveAttempts (on_DELETE env u).2).Nodup ∧
    ∀ r, r ∈ leaveAttempts (on_DELETE env u).2 ↔
      (r = sp ∨ (r ∈ sp :: env.descendants ∧ r ∈ env.userRooms ∧ nonPublic env r = true)) := by
  have hattempts : leaveAttempts (on_DELETE env u).2 = rooms_to_leave env sp := by
    rw [on_DELETE]
    simp [hauth, hres, hmine, leaveAttempts, leaveAttempts_append,
      leaveAttempts_map_fetchedState, leaveAttempts_map_leaveAttempt]
  rw [hattempts]
  refine ⟨List.nodup_dedup _, ?_⟩
  intro r
  simp only [rooms_to_leave, rooms_to_check, space_room_ids, List.mem_dedup,
    List.mem_cons, List.mem_filter, List.contains, List.elem_iff, decide_eq_true_eq]
  tauto

/-- Witness for C9: in the demo environment the private room is attempted,
and the attempts are pairwise distinct. -/
theorem on_DELETE_leave_set_witness :
    (leaveAttempts (on_DELETE demoEnv "@alice:hs").2).Nodup ∧
    "!priv:hs" ∈ leaveAttempts (on_DELETE demoEnv "@alice:hs").2 :=
  ⟨(on_DELETE_leave_set demoEnv "@alice:hs" "!space:hs" rfl rfl rfl).1,
    ((on_DELETE_leave_set demoEnv "@alice:hs" "!space:hs" rfl rfl rfl).2 "!priv:hs").2
      (Or.inr ⟨by decide, by decide, by decide⟩)⟩

/-- C10: a request whose target user is not local to this homeserver is
rejected with a 400 before the handler fetches memberships, fetches any
room state or attempts any membership change: the effect trace is empty, so
no state is modified on this error path. -/
theorem on_DELETE_rejects_remote_users (env : HierarchyEnv) (u sp : String)
    (hauth : env.authOk = true) (hres : env.resolvedSpace = some sp)
    (hmine : env.isMine u = false) :
    (on_DELETE env u).1 = Except.error 400 ∧ (on_DELETE env u).2 = [] := by
  rw [on_DELETE]
  simp [hauth, hres, hmine]

/-- Witness for C10: the demo environment with a remote target user. -/
theorem on_DELETE_rejects_remote_users_witness :
    (on_DELETE demoEnvRemote "@bob:elsewhere").1 = Except.error 400 ∧
    (on_DELETE demoEnvRemote "@bob:elsewhere").2 = [] :=
  on_DELETE_rejects_remote_users demoEnvRemote "@bob:elsewhere" "!space:hs" rfl rfl rfl

end Synapse
